import Mathlib

/- Shallow embedding of the simpleaf orchestration tool (usefulaf repository):
   src/simpleaf/src/main.rs and src/simpleaf/src/utils/prog_utils.rs.  External
   behavior (the semver crate, child-process exit statuses, the filesystem and
   the environment) is modelled explicitly as function parameters, and the
   embedded functions return the data the Rust code would produce: parsed
   versions, constructed command argument lists, recorded side effects, and
   error or panic outcomes. -/

/-- ASCII whitespace test, modelling the character class used by Rust's
`str::split_whitespace` (restricted to the ASCII whitespace characters;
program version output contains no exotic Unicode whitespace). -/
def isWS (c : Char) : Bool :=
  c == ' ' || c == '\t' || c == '\n' || c == '\r'

/-- Accumulating splitter behind `splitWhitespaceTokens`; `cur` holds the
current word reversed. -/
def splitWSAux (cur : List Char) : List Char → List (List Char)
  | [] => if cur.isEmpty then [] else [cur.reverse]
  | c :: cs =>
    if isWS c then
      (if cur.isEmpty then splitWSAux [] cs else cur.reverse :: splitWSAux [] cs)
    else splitWSAux (c :: cur) cs

/-- Model of `vs.split_whitespace()` in `check_version_constraints`
(prog_utils.rs line 41): whitespace-delimited nonempty tokens. -/
def splitWhitespaceTokens (s : String) : List String :=
  (splitWSAux [] s.data).map String.mk

/-- Model of `vs.split_whitespace().last()` (prog_utils.rs lines 41-42). -/
def lastToken (s : String) : Option String :=
  (splitWhitespaceTokens s).getLast?

/-- A parsed semantic version, as produced by `semver::Version::parse`:
numeric major/minor/patch, dot-separated pre-release identifiers and build
metadata identifiers kept as strings. -/
structure SemVersion where
  major : Nat
  minor : Nat
  patch : Nat
  pre : List String
  build : List String
deriving DecidableEq, Repr

/-- Decimal value of a digit run. -/
def digitsVal (ds : List Char) : Nat :=
  ds.foldl (fun a c => a * 10 + (c.toNat - 48)) 0

/-- Numeric identifier parsing per the semver crate: a nonempty digit run
with no leading zero, bounded by u64; returns the value and the unconsumed
input. -/
def parseNumeric (cs : List Char) : Option (Nat × List Char) :=
  let ds := cs.takeWhile Char.isDigit
  let rest := cs.dropWhile Char.isDigit
  if ds.isEmpty then none
  else if decide (1 < ds.length) && ds.headD ' ' == '0' then none
  else if digitsVal ds < 2 ^ 64 then some (digitsVal ds, rest) else none

/-- Characters allowed inside a pre-release or build identifier by the
semver crate: ASCII alphanumerics and hyphen. -/
def isIdentChar (c : Char) : Bool :=
  c.isDigit || c.isAlpha || c == '-'

/-- The semver crate rejects a pre-release identifier segment that is all
digits, longer than one character, and starts with zero (leading zeros);
build segments are not checked. -/
def badPreSeg (isPre : Bool) (seg : List Char) : Bool :=
  isPre && decide (1 < seg.length) && seg.all Char.isDigit && seg.headD ' ' == '0'

/-- Model of the semver crate's `identifier` scanner: consumes dot-separated
identifier segments, failing on an empty segment or (for pre-release) a
leading zero, and stopping at the first character that is neither an
identifier character nor a dot.  `cur` is the segment being scanned and
`acc` the segments already completed. -/
def segsAux (isPre : Bool) (cur : List Char) (acc : List String) :
    List Char → Option (List String × List Char)
  | [] =>
    if cur.isEmpty then
      (if acc.isEmpty then some ([], []) else none)
    else if badPreSeg isPre cur then none
    else some (acc ++ [String.mk cur], [])
  | c :: cs =>
    if isIdentChar c then segsAux isPre (cur ++ [c]) acc cs
    else if c == '.' then
      (if cur.isEmpty then none
       else if badPreSeg isPre cur then none
       else segsAux isPre [] (acc ++ [String.mk cur]) cs)
    else
      if cur.isEmpty then
        (if acc.isEmpty then some ([], c :: cs) else none)
      else if badPreSeg isPre cur then none
      else some (acc ++ [String.mk cur], c :: cs)

/-- Parse the optional `-pre` and `+build` tail of a version, per
`semver::Version::parse`: an empty pre-release or build list after the
marker character is an error, and no characters may remain afterwards. -/
def parseSuffix (cs : List Char) : Option (List String × List String) :=
  match cs with
  | [] => some ([], [])
  | '-' :: rest =>
    match segsAux true [] [] rest with
    | none => none
    | some (pre, r) =>
      if pre.isEmpty then none
      else
        match r with
        | [] => some (pre, [])
        | '+' :: rest2 =>
          (match segsAux false [] [] rest2 with
           | none => none
           | some (bld, r2) =>
             if bld.isEmpty then none
             else if r2.isEmpty then some (pre, bld) else none)
        | _ => none
  | '+' :: rest =>
    (match segsAux false [] [] rest with
     | none => none
     | some (bld, r2) =>
       if bld.isEmpty then none
       else if r2.isEmpty then some ([], bld) else none)
  | _ => none

/-- Model of `semver::Version::parse`: `major.minor.patch` with optional
pre-release and build metadata, rejecting anything else. -/
def parseVersion (s : String) : Option SemVersion :=
  match parseNumeric s.data with
  | some (maj, '.' :: r1) =>
    (match parseNumeric r1 with
     | some (minr, '.' :: r2) =>
       (match parseNumeric r2 with
        | some (pat, r3) =>
          (match parseSuffix r3 with
           | some (pre, bld) => some ⟨maj, minr, pat, pre, bld⟩
           | none => none)
        | none => none)
     | _ => none)
  | _ => none

/-- Three-way comparison on naturals, written with plain conditionals so
that proofs can proceed by case splits. -/
def natCmp (a b : Nat) : Ordering :=
  if a < b then .lt else if a = b then .eq else .gt

/-- Lexicographic three-way comparison on character lists (byte order for
the ASCII identifiers produced by the version parser). -/
def charListCmp : List Char → List Char → Ordering
  | [], [] => .eq
  | [], _ :: _ => .lt
  | _ :: _, [] => .gt
  | a :: as, b :: bs => (natCmp a.toNat b.toNat).then (charListCmp as bs)

/-- Identifier comparison as implemented by the semver crate's `Ord` for
`Prerelease`: two all-digit identifiers compare by length then bytes
(numeric order, absent leading zeros), digits sort below alphanumerics,
and alphanumerics compare bytewise. -/
def crateIdentCmp (a b : String) : Ordering :=
  if a.data.all Char.isDigit then
    (if b.data.all Char.isDigit then (natCmp a.length b.length).then (charListCmp a.data b.data)
     else .lt)
  else
    if b.data.all Char.isDigit then .gt
    else charListCmp a.data b.data

/-- Segment-by-segment pre-release comparison loop from the semver crate:
a longer list compares greater once the common segments are equal. -/
def cratePreListCmp : List String → List String → Ordering
  | [], [] => .eq
  | [], _ :: _ => .lt
  | _ :: _, [] => .gt
  | x :: xs, y :: ys => (crateIdentCmp x y).then (cratePreListCmp xs ys)

/-- Pre-release comparison from the semver crate: an empty pre-release (a
real release) compares greater than any nonempty pre-release. -/
def cratePreCmp (a b : List String) : Ordering :=
  match a, b with
  | [], [] => .eq
  | [], _ => .gt
  | _, [] => .lt
  | x, y => cratePreListCmp x y

/-- Identifier comparison per the SemVer specification's precedence rules
(item 11.4): numeric identifiers compare numerically and below
alphanumeric ones, which compare in ASCII order. -/
def specIdentCmp (a b : String) : Ordering :=
  if a.data.all Char.isDigit then
    (if b.data.all Char.isDigit then natCmp (digitsVal a.data) (digitsVal b.data)
     else .lt)
  else
    if b.data.all Char.isDigit then .gt
    else charListCmp a.data b.data

/-- Segment loop for SemVer precedence: a smaller set of pre-release fields
has lower precedence when all preceding identifiers are equal. -/
def specPreListCmp : List String → List String → Ordering
  | [], [] => .eq
  | [], _ :: _ => .lt
  | _ :: _, [] => .gt
  | x :: xs, y :: ys => (specIdentCmp x y).then (specPreListCmp xs ys)

/-- Pre-release precedence per the SemVer specification: a version without
pre-release has higher precedence than one with it. -/
def specPreCmp (a b : List String) : Ordering :=
  match a, b with
  | [], [] => .eq
  | [], _ => .gt
  | _, [] => .lt
  | x, y => specPreListCmp x y

/-- Total precedence comparison of two versions per the SemVer
specification (build metadata is ignored). -/
def semverCmp (u w : SemVersion) : Ordering :=
  (natCmp u.major w.major).then ((natCmp u.minor w.minor).then
    ((natCmp u.patch w.patch).then (specPreCmp u.pre w.pre)))

/-- Comparator operators appearing in this program's hard-coded requirement
strings (the semver crate supports more, but `get_required_progs` only ever
parses `>=` and `<` comparators). -/
inductive ReqOp
  | ge
  | lt
deriving DecidableEq, Repr

/-- A parsed requirement comparator, as stored by `semver::VersionReq`:
operator, major, optional minor and patch, and a pre-release part. -/
structure Comparator where
  op : ReqOp
  major : Nat
  minor : Option Nat
  patch : Option Nat
  pre : List String
deriving DecidableEq, Repr

/-- The semver crate's `matches_exact`. -/
def matchesExact (c : Comparator) (v : SemVersion) : Bool :=
  decide (v.major = c.major) &&
  (match c.minor with | none => true | some m => decide (v.minor = m)) &&
  (match c.patch with | none => true | some p => decide (v.patch = p)) &&
  decide (v.pre = c.pre)

/-- The semver crate's `matches_greater`. -/
def matchesGreater (c : Comparator) (v : SemVersion) : Bool :=
  if v.major ≠ c.major then decide (c.major < v.major)
  else
    match c.minor with
    | none => false
    | some m =>
      if v.minor ≠ m then decide (m < v.minor)
      else
        match c.patch with
        | none => false
        | some p =>
          if v.patch ≠ p then decide (p < v.patch)
          else decide (cratePreCmp v.pre c.pre = .gt)

/-- The semver crate's `matches_less`. -/
def matchesLess (c : Comparator) (v : SemVersion) : Bool :=
  if v.major ≠ c.major then decide (v.major < c.major)
  else
    match c.minor with
    | none => false
    | some m =>
      if v.minor ≠ m then decide (v.minor < m)
      else
        match c.patch with
        | none => false
        | some p =>
          if v.patch ≠ p then decide (v.patch < p)
          else decide (cratePreCmp v.pre c.pre = .lt)

/-- The semver crate's `matches_impl`, restricted to the operators the
program uses: `>=` is exact-or-greater, `<` is less. -/
def matchesComparator (c : Comparator) (v : SemVersion) : Bool :=
  match c.op with
  | .ge => matchesExact c v || matchesGreater c v
  | .lt => matchesLess c v

/-- The semver crate's `pre_is_compatible`: a comparator admits a
pre-release version only if it names the same triple and itself carries a
pre-release part. -/
def preIsCompatible (c : Comparator) (v : SemVersion) : Bool :=
  decide (c.major = v.major) && decide (c.minor = some v.minor) &&
  decide (c.patch = some v.patch) && !(decide (c.pre = []))

/-- The semver crate's `matches_req` (Cargo semantics): every comparator
must match, and a version with a pre-release part additionally needs some
comparator with the same triple and a pre-release part of its own. -/
def reqMatches (cs : List Comparator) (v : SemVersion) : Bool :=
  cs.all (fun c => matchesComparator c v) &&
  (decide (v.pre = []) || cs.any (fun c => preIsCompatible c v))

/-- Accumulating splitter on a separator character, modelling
`str::split` / the comma splitting of a requirement string. -/
def splitOnCharAux (sep : Char) (cur : List Char) : List Char → List (List Char)
  | [] => [cur.reverse]
  | c :: cs =>
    if c == sep then cur.reverse :: splitOnCharAux sep [] cs
    else splitOnCharAux sep (c :: cur) cs

/-- Strip leading and trailing whitespace from a character list. -/
def trimWSList (cs : List Char) : List Char :=
  ((cs.dropWhile isWS).reverse.dropWhile isWS).reverse

/-- Parse a full `major.minor.patch` triple with nothing left over. -/
def parseTriple (cs : List Char) : Option (Nat × Nat × Nat) :=
  match parseNumeric cs with
  | some (a, '.' :: r1) =>
    (match parseNumeric r1 with
     | some (b, '.' :: r2) =>
       (match parseNumeric r2 with
        | some (c, []) => some (a, b, c)
        | _ => none)
     | _ => none)
  | _ => none

/-- Parse one comparator.  Restricted to the comparator forms that occur in
this program's three hard-coded requirement strings (`>=x.y.z` and
`<x.y.z` with full triples and no pre-release); every other form yields
`none`, which the caller treats like the crate's parse error. -/
def parseComparatorStr : List Char → Option Comparator
  | '>' :: '=' :: rest =>
    (parseTriple rest).map (fun t => ⟨ReqOp.ge, t.1, some t.2.1, some t.2.2, []⟩)
  | '<' :: '=' :: _ => none
  | '<' :: rest =>
    (parseTriple rest).map (fun t => ⟨ReqOp.lt, t.1, some t.2.1, some t.2.2, []⟩)
  | _ => none

/-- Model of `semver::VersionReq::parse` on the program's requirement
strings: comma-separated comparators, each trimmed of surrounding
whitespace. -/
def parseReq (s : String) : Option (List Comparator) :=
  (splitOnCharAux ',' [] s.data).mapM (fun t => parseComparatorStr (trimWSList t))

/-- Outcome of `check_version_constraints` (prog_utils.rs lines 35-62).
`panicked` models the `.unwrap()` calls on lines 43-44, which abort the
process instead of returning an error. -/
inductive CvcResult
  | ok (v : SemVersion)
  | err (msg : String)
  | panicked
deriving DecidableEq, Repr

/-- Embedding of `check_version_constraints` (prog_utils.rs lines 35-62).
The program output argument models `Result<String, std::io::Error>`; the
requirement string is parsed with the crate-model parser and both parses
go through `.unwrap()`, hence the `panicked` outcomes. -/
def check_version_constraints (reqString : String)
    (progOutput : Except String String) : CvcResult :=
  match progOutput with
  | .ok vs =>
    (match lastToken vs with
     | some version =>
       (match parseVersion version with
        | none => .panicked
        | some parsedVersion =>
          (match parseReq reqString with
           | none => .panicked
           | some req =>
             if reqMatches req parsedVersion then .ok parsedVersion
             else .err ("parsed version " ++ version ++
                        " does not satisfy constraints " ++ reqString)))
     | none => .err "invalid version string")
  | .error _ => .err "could not parse program output"

/-- The aligner (salmon) requirement string from `get_required_progs`
(prog_utils.rs line 107). -/
def salmonReqStr : String := ">=1.5.1, <2.0.0"

/-- The cell-caller (alevin-fry) requirement string (prog_utils.rs line 114). -/
def alevinFryReqStr : String := ">=0.4.1, <1.0.0"

/-- The reference-builder (pyroe) requirement string (prog_utils.rs line 121). -/
def pyroeReqStr : String := ">=0.6.2, <1.0.0"

/-- A plain release version with the given triple. -/
def mkVer (a b c : Nat) : SemVersion := ⟨a, b, c, [], []⟩

/-- The three hard-coded ranges of `get_required_progs`, paired with their
lower (inclusive) and upper (exclusive) bound versions. -/
def hardcodedRanges : List (String × SemVersion × SemVersion) :=
  [(salmonReqStr, mkVer 1 5 1, mkVer 2 0 0),
   (alevinFryReqStr, mkVer 0 4 1, mkVer 1 0 0),
   (pyroeReqStr, mkVer 0 6 2, mkVer 1 0 0)]

/-- Range satisfaction per SemVer precedence, following the claim's words:
the version is no less than the lower bound and strictly below the upper
bound in precedence order. -/
def precSatisfies (lo hi v : SemVersion) : Bool :=
  (match semverCmp v lo with | .lt => false | _ => true) &&
  (match semverCmp v hi with | .lt => true | _ => false)

/-- Acceptance as the claim states it (refinement side, from the spec's
words): the last whitespace-delimited token of the output, parsed as a
semantic version, satisfies the range per SemVer precedence. -/
def specPrecedenceAccepts (lo hi : SemVersion) (output : String) : Bool :=
  match lastToken output with
  | some tok =>
    (match parseVersion tok with
     | some v => precSatisfies lo hi v
     | none => false)
  | none => false

/-- Chemistry variants (main.rs lines 125-129). -/
inductive Chemistry
  | tenxV2
  | tenxV3
  | other (s : String)
deriving DecidableEq, Repr

/-- Result variants of the permit-list fetcher (main.rs lines 131-135). -/
inductive PermitListResult
  | downloadSuccessful (p : String)
  | alreadyPresent (p : String)
  | unregisteredChemistry
deriving DecidableEq, Repr

/-- Side effects recorded while fetching a permit list: directories created
with `mkdir -p` and full argument lists of `wget` invocations. -/
structure PermitEffects where
  mkdirs : List String
  wgetInvocations : List (List String)
deriving DecidableEq, Repr

/-- No filesystem side effects. -/
def noFsEffects : PermitEffects := ⟨[], []⟩

/-- Model of `PathBuf::join` for the plain directory paths this program
builds: the left path, a separator, the right component. -/
def pathJoin (a b : String) : String := a ++ "/" ++ b

/-- Permit-list file name per chemistry (main.rs lines 140-152); `none`
for an unregistered chemistry. -/
def chemPermitFile : Chemistry → Option String
  | .tenxV2 => some "10x_v2_permit.txt"
  | .tenxV3 => some "10x_v3_permit.txt"
  | .other _ => none

/-- Hard-coded download URL per chemistry (main.rs lines 143 and 147). -/
def chemPermitUrl : Chemistry → Option String
  | .tenxV2 => some "https://umd.box.com/shared/static/jbs2wszgbj7k4ic2hass9ts6nhqkwq1p"
  | .tenxV3 => some "https://umd.box.com/shared/static/eo0qlkfqf2v24ws6dfnxty6gqk1otf2h"
  | .other _ => none

/-- Embedding of `get_permit_if_absent` (main.rs lines 137-180).  The
environment lookup of `ALEVIN_FRY_HOME` is the `afHome` parameter and the
filesystem existence test is the `fileExists` parameter; `mkdir -p` and the
`wget` child process are recorded as effects and assumed to succeed. -/
def get_permit_if_absent (afHome : Option String) (fileExists : String → Bool)
    (chem : Chemistry) : Except String (PermitListResult × PermitEffects) :=
  match chemPermitFile chem, chemPermitUrl chem with
  | some chemFile, some dlUrl =>
    (match afHome with
     | some p =>
       let odir := pathJoin p "plist"
       if fileExists (pathJoin odir chemFile) then
         .ok (.alreadyPresent (pathJoin odir chemFile), noFsEffects)
       else
         .ok (.downloadSuccessful (pathJoin odir chemFile),
              ⟨[odir], [["-v", "-O", pathJoin odir chemFile, "-L", dlUrl]]⟩)
     | none => .error "could not resolve $ALEVIN_FRY_HOME environment variable")
  | _, _ => .ok (.unregisteredChemistry, noFsEffects)

/-- The four stages of the quant workflow, in pipeline order
(main.rs lines 363-495). -/
inductive QuantStage
  | mapping
  | genPermitList
  | collate
  | quantStep
deriving DecidableEq, Repr

/-- Pipeline order of the quant stages. -/
def quantStageOrder : List QuantStage :=
  [.mapping, .genPermitList, .collate, .quantStep]

/-- Stage names as used in the `bail!` messages of main.rs
(lines 415, 441, 464, 492). -/
def quantStageName : QuantStage → String
  | .mapping => "mapping"
  | .genPermitList => "generate-permit-list"
  | .collate => "collate"
  | .quantStep => "quant"

/-- Embedding of the quant workflow's stage sequencing (main.rs lines
411-495).  `ec` gives each stage's child-process exit code
(`status.success()` holds exactly for code 0); the result is the list of
stages whose process was started, and `some (stage, code)` when a stage
failed and the run bailed out. -/
def runQuantPipeline (ec : QuantStage → Int) :
    List QuantStage × Option (QuantStage × Int) :=
  if ec .mapping ≠ 0 then ([.mapping], some (.mapping, ec .mapping))
  else if ec .genPermitList ≠ 0 then
    ([.mapping, .genPermitList], some (.genPermitList, ec .genPermitList))
  else if ec .collate ≠ 0 then
    ([.mapping, .genPermitList, .collate], some (.collate, ec .collate))
  else if ec .quantStep ≠ 0 then
    (quantStageOrder, some (.quantStep, ec .quantStep))
  else (quantStageOrder, none)

/-- Rendering of a pipeline failure as a `bail!` message naming the stage
and its exit status. -/
def quantFailureMsg : Option (QuantStage × Int) → Option String
  | some (s, c) => some (quantStageName s ++ " failed with exit status " ++ toString c)
  | none => none

/-- Modelled from the spec: `CellFilterMethod` is declared in
`utils/af_utils.rs`, which is not included under `src/`; its variants are
those listed in spec section 3 and constructed in main.rs lines 320-357. -/
inductive CellFilterMethod
  | kneeFinding
  | forceCells (n : Nat)
  | expectCells (n : Nat)
  | unfilteredExternalList (p : String) (minCells : Nat)
deriving DecidableEq, Repr

/-- Modelled from the spec: `add_to_args` lives in `utils/af_utils.rs`,
which is not included under `src/`.  Per spec section 4.4 step 3 it
appends the cell-filter flags derived from the filter method -
`--force-cells N`, `--expect-cells N`,
`--unfiltered-pl path --min-reads minCells`, or nothing for knee
finding. -/
def add_to_args : CellFilterMethod → List String
  | .kneeFinding => []
  | .forceCells n => ["--force-cells", toString n]
  | .expectCells n => ["--expect-cells", toString n]
  | .unfilteredExternalList p m => ["--unfiltered-pl", p, "--min-reads", toString m]

/-- Filter-method resolution for the non-unfiltered branch of the quant
workflow (main.rs lines 320 and 347-360): knee finding unless forced or
expected cell counts were supplied, the expected-cells match running
last. -/
def resolveFilterMethodNoPl (forcedCells expectCells : Option Nat) : CellFilterMethod :=
  let fm := CellFilterMethod.kneeFinding
  let fm := match forcedCells with
            | some n => CellFilterMethod.forceCells n
            | none => fm
  match expectCells with
  | some n => CellFilterMethod.expectCells n
  | none => fm

/-- CLI arguments of the quant subcommand relevant to command
construction (main.rs lines 304-317). -/
structure QuantArgs where
  index : String
  reads1 : List String
  reads2 : List String
  threads : Nat
  chemistry : String
  t2gMap : String
  resolution : String
  output : String
deriving DecidableEq, Repr

/-- Comma joining of read paths (main.rs lines 376-385). -/
def joinComma (xs : List String) : String := String.intercalate "," xs

/-- Chemistry flag handed to the aligner (main.rs lines 398-408). -/
def chemFlagArg (chem : String) : String :=
  if chem = "10xv2" then "--chromium"
  else if chem = "10xv3" then "--chromiumV3"
  else "--" ++ chem

/-- The chemistry-independent part of the `salmon alevin` argument list
(main.rs lines 368-395); the chemistry flag is appended after these. -/
def salmonAlevinBase (q : QuantArgs) : List String :=
  ["alevin", "--index", q.index, "-l", "A",
   "-1", joinComma q.reads1, "-2", joinComma q.reads2,
   "--threads", toString q.threads,
   "-o", pathJoin q.output "af_map", "--sketch"]

/-- Full `salmon alevin` argument list of the quant workflow's mapping
stage (main.rs lines 368-408). -/
def salmonAlevinArgs (q : QuantArgs) : List String :=
  salmonAlevinBase q ++ [chemFlagArg q.chemistry]

/-- `alevin-fry generate-permit-list` argument list (main.rs lines
423-431): fixed input and direction flags, then the filter-method flags,
then the output directory. -/
def gplCmdArgs (fm : CellFilterMethod) (mapOut gplOut : String) : List String :=
  ["generate-permit-list", "-i", mapOut, "-d", "fw"] ++ add_to_args fm ++ ["-o", gplOut]

/-- `alevin-fry collate` argument list (main.rs lines 452-455). -/
def collateCmdArgs (gplOut mapOut : String) (threads : Nat) : List String :=
  ["collate", "-i", gplOut, "-r", mapOut, "-t", toString threads]

/-- `alevin-fry quant` argument list (main.rs lines 475-483). -/
def quantCmdArgs (gplOut : String) (threads : Nat) (t2g res : String) : List String :=
  ["quant", "-i", gplOut, "-o", gplOut, "-t", toString threads, "-m", t2g, "-r", res]

/-- CLI arguments of the index subcommand (main.rs lines 23-58). -/
structure IndexArgs where
  fasta : String
  gtf : String
  rlen : Nat
  output : String
  spliced : Option String
  unspliced : Option String
  dedup : Bool
  sparse : Bool
  threads : Nat
deriving DecidableEq, Repr

/-- The two child-process stages of the index workflow. -/
inductive IndexStage
  | refBuild
  | alignerIndex
deriving DecidableEq, Repr

/-- One child-process invocation: program path and argument list. -/
structure CmdInvocation where
  prog : String
  args : List String
deriving DecidableEq, Repr

/-- Everything the index workflow produces: the invocations issued in
order, the directories created, the provenance file path, the reported
stage failure (main.rs checks no exit status in this workflow, so it is
always `none` when the workflow completes), and whether the thread-clamp
warning was printed. -/
structure IndexRun where
  invocations : List CmdInvocation
  mkdirs : List String
  infoFile : String
  failure : Option (IndexStage × Int)
  clampWarned : Bool
deriving DecidableEq, Repr

/-- Thread clamping of the index workflow (main.rs lines 284-294): when
available parallelism is known and smaller than the request, the count is
lowered to it and a warning is printed.  Returns the count actually used
and whether the warning was printed. -/
def clampedThreads (threads : Nat) (maxPar : Option Nat) : Nat × Bool :=
  match maxPar with
  | some m => if threads > m then (m, true) else (threads, false)
  | none => (threads, false)

/-- Reference FASTA file name derived in main.rs line 203.  `rlen` is a
`u32` and `rlen - 5` is unsigned subtraction, so for `rlen < 5` the
computation overflows (a Rust arithmetic-overflow panic in debug builds);
the model returns `none` there. -/
def indexRefFileName (rlen : Nat) : Option String :=
  if rlen < 5 then none
  else some ("splici_fl" ++ toString (rlen - 5) ++ ".fa")

/-- Transcript-to-gene file name derived in main.rs line 208, with the
same `rlen - 5` underflow caveat. -/
def indexT2gFileName (rlen : Nat) : Option String :=
  if rlen < 5 then none
  else some ("splici_fl" ++ toString (rlen - 5) ++ "_t2g_3col.tsv")

/-- `pyroe make-splici` argument list (main.rs lines 233-263): the
subcommand, optional dedup and extra-sequence flags, then the positional
FASTA, GTF, read length and output reference directory. -/
def pyroeMakeSpliciArgs (p : IndexArgs) (outref : String) : List String :=
  ["make-splici"]
  ++ (if p.dedup then ["--dedup-seqs"] else [])
  ++ (match p.spliced with | some es => ["--extra-spliced", es] | none => [])
  ++ (match p.unspliced with | some eu => ["--extra-unspliced", eu] | none => [])
  ++ [p.fasta, p.gtf, toString p.rlen, outref]

/-- `salmon index` argument list (main.rs lines 266-298): index output
directory, the reference FASTA produced by the builder, the optional
sparse flag, and finally the (possibly clamped) thread count. -/
def salmonIndexArgs (p : IndexArgs) (outref refFile : String) (clamped : Nat) : List String :=
  ["index", "-i", pathJoin p.output "index", "-t", pathJoin outref refFile]
  ++ (if p.sparse then ["--sparse"] else [])
  ++ ["--threads", toString clamped]

/-- Embedding of the index workflow (main.rs lines 190-303).  `maxPar`
models `std::thread::available_parallelism()` (`none` when it errs) and
`ec` the two child exit codes, which the source reads but never checks;
`none` overall models the `rlen - 5` underflow panic. -/
def indexWorkflow (pyroePath salmonPath : String) (p : IndexArgs)
    (maxPar : Option Nat) (ec : IndexStage → Int) : Option IndexRun :=
  match indexRefFileName p.rlen, indexT2gFileName p.rlen with
  | some refFile, some _t2gName =>
    let outref := pathJoin p.output "ref"
    let ct := clampedThreads p.threads maxPar
    let _cres := ec .refBuild
    let _ires := ec .alignerIndex
    some { invocations := [⟨pyroePath, pyroeMakeSpliciArgs p outref⟩,
                           ⟨salmonPath, salmonIndexArgs p outref refFile ct.1⟩],
           mkdirs := [p.output, outref],
           infoFile := pathJoin p.output "index_info.json",
           failure := none,
           clampWarned := ct.2 }
  | _, _ => none

/-- The aligner-index invocation of an index run (the second invocation). -/
def secondInvocation (r : IndexRun) : CmdInvocation :=
  r.invocations.getD 1 ⟨"", []⟩

/-- Projection used to state what the index workflow reports: the failure
field, the number of invocations, and the program and first argument of
the aligner-index invocation. -/
def indexRunView (r : IndexRun) : Option (IndexStage × Int) × Nat × String × String :=
  (r.failure, r.invocations.length, (secondInvocation r).prog,
   (secondInvocation r).args.headD "")

/-- Projection used to state how threads reach the aligner-index
invocation: its last argument, the argument before it, and whether the
clamp warning was printed. -/
def threadView (r : IndexRun) : Option String × String × Bool :=
  ((secondInvocation r).args.getLast?,
   (secondInvocation r).args.getD ((secondInvocation r).args.length - 2) "",
   r.clampWarned)

theorem semverCmp_mkVer_lt_iff (v : SemVersion) (a b c : Nat) (hpre : v.pre = []) :
    semverCmp v (mkVer a b c) = .lt ↔
      (v.major < a ∨ (v.major = a ∧ (v.minor < b ∨ (v.minor = b ∧ v.patch < c)))) := by
  obtain ⟨M, Mi, P, pr, bd⟩ := v
  simp only at hpre
  subst hpre
  simp only [semverCmp, mkVer, specPreCmp, natCmp]
  split_ifs <;> simp [Ordering.then] <;> omega

theorem matchesGe_true_iff (v : SemVersion) (a b c : Nat) (hpre : v.pre = []) :
    (matchesExact ⟨ReqOp.ge, a, some b, some c, []⟩ v
       || matchesGreater ⟨ReqOp.ge, a, some b, some c, []⟩ v) = true ↔
      (a < v.major ∨ (a = v.major ∧ (b < v.minor ∨ (b = v.minor ∧ c ≤ v.patch)))) := by
  obtain ⟨M, Mi, P, pr, bd⟩ := v
  simp only at hpre
  subst hpre
  simp only [matchesExact, matchesGreater, cratePreCmp]
  simp only [Bool.or_eq_true, Bool.and_eq_true, decide_eq_true_eq]
  split_ifs <;> simp_all
  all_goals omega

theorem matchesLess_true_iff (v : SemVersion) (a b c : Nat) (hpre : v.pre = []) :
    matchesLess ⟨ReqOp.lt, a, some b, some c, []⟩ v = true ↔
      (v.major < a ∨ (v.major = a ∧ (v.minor < b ∨ (v.minor = b ∧ v.patch < c)))) := by
  obtain ⟨M, Mi, P, pr, bd⟩ := v
  simp only at hpre
  subst hpre
  simp only [matchesLess, cratePreCmp]
  split_ifs <;> simp_all

theorem precSatisfies_iff (lo hi v : SemVersion) :
    precSatisfies lo hi v = true ↔
      (semverCmp v lo ≠ .lt ∧ semverCmp v hi = .lt) := by
  unfold precSatisfies
  rcases h1 : semverCmp v lo <;> rcases h2 : semverCmp v hi <;> simp

theorem reqMatches_range_iff (a₁ b₁ c₁ a₂ b₂ c₂ : Nat) (v : SemVersion) :
    reqMatches [⟨ReqOp.ge, a₁, some b₁, some c₁, []⟩,
                ⟨ReqOp.lt, a₂, some b₂, some c₂, []⟩] v = true ↔
      (v.pre = [] ∧ precSatisfies (mkVer a₁ b₁ c₁) (mkVer a₂ b₂ c₂) v = true) := by
  by_cases hpre : v.pre = []
  · have h1 := matchesGe_true_iff v a₁ b₁ c₁ hpre
    have h2 := matchesLess_true_iff v a₂ b₂ c₂ hpre
    have h3 := semverCmp_mkVer_lt_iff v a₁ b₁ c₁ hpre
    have h4 := semverCmp_mkVer_lt_iff v a₂ b₂ c₂ hpre
    rw [precSatisfies_iff]
    simp only [reqMatches, List.all_cons, List.all_nil, matchesComparator, Bool.and_true,
      Bool.and_eq_true, Bool.or_eq_true, decide_eq_true_eq, h1, h2, h3, h4, hpre,
      List.any_cons, List.any_nil, preIsCompatible, ne_eq]
    simp only [true_or, or_true, true_and, and_true]
    omega
  · simp [reqMatches, preIsCompatible, hpre]

theorem cvc_ok_iff_aux (r : String) (a₁ b₁ c₁ a₂ b₂ c₂ : Nat)
    (hreq : parseReq r = some [⟨ReqOp.ge, a₁, some b₁, some c₁, []⟩,
                               ⟨ReqOp.lt, a₂, some b₂, some c₂, []⟩])
    (out : String) (v : SemVersion) :
    check_version_constraints r (Except.ok out) = CvcResult.ok v ↔
      ((lastToken out).bind parseVersion = some v ∧ v.pre = [] ∧
        precSatisfies (mkVer a₁ b₁ c₁) (mkVer a₂ b₂ c₂) v = true) := by
  cases hlt : lastToken out with
  | none => simp [check_version_constraints, hlt]
  | some tok =>
    cases hpv : parseVersion tok with
    | none => simp [check_version_constraints, hlt, hpv]
    | some pv =>
      have key := reqMatches_range_iff a₁ b₁ c₁ a₂ b₂ c₂ pv
      by_cases hm : reqMatches [⟨ReqOp.ge, a₁, some b₁, some c₁, []⟩,
          ⟨ReqOp.lt, a₂, some b₂, some c₂, []⟩] pv = true
      · have hk := key.mp hm
        simp only [check_version_constraints, hlt, hpv, hreq, hm, if_true,
          Option.some_bind]
        constructor
        · intro h
          injection h with h
          subst h
          exact ⟨rfl, hk.1, hk.2⟩
        · rintro ⟨hsome, -, -⟩
          injection hsome with hsome
          subst hsome
          rfl
      · have hm2 : reqMatches [⟨ReqOp.ge, a₁, some b₁, some c₁, []⟩,
            ⟨ReqOp.lt, a₂, some b₂, some c₂, []⟩] pv = false := by
          revert hm
          cases reqMatches [⟨ReqOp.ge, a₁, some b₁, some c₁, []⟩,
            ⟨ReqOp.lt, a₂, some b₂, some c₂, []⟩] pv <;> simp
        have hk : ¬(pv.pre = [] ∧
            precSatisfies (mkVer a₁ b₁ c₁) (mkVer a₂ b₂ c₂) pv = true) := by
          intro hc
          rw [key.mpr hc] at hm2
          cases hm2
        simp only [check_version_constraints, hlt, hpv, hreq, hm2, Option.some_bind,
          Bool.false_eq_true, if_false]
        constructor
        · intro h
          exact (CvcResult.noConfusion h)
        · rintro ⟨hsome, hpre, hsat⟩
          injection hsome with hsome
          subst hsome
          exact absurd ⟨hpre, hsat⟩ hk

/-- C1 (counterexample): the output `salmon 1.9.0-alpha` parses to the
pre-release version 1.9.0-alpha, which satisfies the aligner range
`>=1.5.1 <2.0.0` per SemVer precedence, yet `check_version_constraints`
rejects it: the semver crate's Cargo-style matching never admits a
pre-release version against comparators without pre-release parts, so the
claimed equivalence with precedence-based satisfaction fails. -/
theorem version_range_precedence_counterexample :
    specPrecedenceAccepts (mkVer 1 5 1) (mkVer 2 0 0) "salmon 1.9.0-alpha" = true ∧
    check_version_constraints salmonReqStr (Except.ok "salmon 1.9.0-alpha")
      = CvcResult.err
          "parsed version 1.9.0-alpha does not satisfy constraints >=1.5.1, <2.0.0" := by
  exact ⟨rfl, rfl⟩

/-- C1 (amended): for each hard-coded requirement range,
`check_version_constraints` accepts (returns Ok with the parsed version)
iff the last whitespace-delimited token of the output parses as a semantic
version that carries no pre-release part and satisfies the range per
semantic versioning precedence.  (Pre-release versions are always
rejected by these ranges under the semver crate's matching rules; on
versions without pre-release, crate matching coincides with precedence.) -/
theorem version_range_check_amended (r : String) (lo hi : SemVersion)
    (hmem : (r, lo, hi) ∈ hardcodedRanges) (out : String) (v : SemVersion) :
    check_version_constraints r (Except.ok out) = CvcResult.ok v ↔
      ((lastToken out).bind parseVersion = some v ∧ v.pre = [] ∧
        precSatisfies lo hi v = true) := by
  simp only [hardcodedRanges, List.mem_cons, List.not_mem_nil, or_false,
    Prod.mk.injEq] at hmem
  rcases hmem with ⟨rfl, rfl, rfl⟩ | ⟨rfl, rfl, rfl⟩ | ⟨rfl, rfl, rfl⟩
  · exact cvc_ok_iff_aux salmonReqStr 1 5 1 2 0 0 rfl out v
  · exact cvc_ok_iff_aux alevinFryReqStr 0 4 1 1 0 0 rfl out v
  · exact cvc_ok_iff_aux pyroeReqStr 0 6 2 1 0 0 rfl out v

/-- Witness for C1 (amended) at the concrete output `salmon 1.6.0` against
the aligner range. -/
theorem version_range_check_witness :
    check_version_constraints salmonReqStr (Except.ok "salmon 1.6.0")
      = CvcResult.ok (mkVer 1 6 0) := by
  exact (version_range_check_amended salmonReqStr (mkVer 1 5 1) (mkVer 2 0 0)
    (by simp [hardcodedRanges]) "salmon 1.6.0" (mkVer 1 6 0)).mpr ⟨rfl, rfl, rfl⟩

/-- C4 (counterexample): on output whose last whitespace-delimited token is
not a parseable semantic version, `check_version_constraints` does not
reach its error branch: `Version::parse(version).unwrap()`
(prog_utils.rs line 43) panics, so no `VersionError` result is returned. -/
theorem version_unparseable_panics_counterexample :
    check_version_constraints salmonReqStr (Except.ok "salmon version-one")
      = CvcResult.panicked := by
  exact rfl

/-- C4 (amended): `check_version_constraints` returns an ordinary error for
output with no whitespace-delimited token (the `invalid version string`
branch) and for a failed version command, but when the last token exists
and is not parseable as a semantic version the function panics via
`.unwrap()` instead of returning a VersionError. -/
theorem version_error_branches (r out : String) :
    (lastToken out = none →
      check_version_constraints r (Except.ok out) = CvcResult.err "invalid version string") ∧
    (∀ e, check_version_constraints r (Except.error e)
      = CvcResult.err "could not parse program output") ∧
    (∀ tok, lastToken out = some tok → parseVersion tok = none →
      check_version_constraints r (Except.ok out) = CvcResult.panicked) := by
  refine ⟨?_, ?_, ?_⟩
  · intro h
    simp [check_version_constraints, h]
  · intro e
    rfl
  · intro tok h1 h2
    simp [check_version_constraints, h1, h2]

/-- Witness for C4 (amended): whitespace-only output yields the ordinary
error, while an unparseable token makes the function panic. -/
theorem version_error_branches_witness :
    check_version_constraints salmonReqStr (Except.ok "  ")
      = CvcResult.err "invalid version string" ∧
    check_version_constraints salmonReqStr (Except.ok "vX") = CvcResult.panicked := by
  exact ⟨(version_error_branches salmonReqStr "  ").1 rfl,
         (version_error_branches salmonReqStr "vX").2.2 "vX" rfl rfl⟩

/-- C2: in the quant workflow, for every assignment of child exit codes,
if stage `i` is the first whose process exits nonzero then exactly the
stages up to and including `i` are started, the run aborts with that
stage and its exit status (rendered in the `bail!` message), and no later
stage's process is ever started. -/
theorem quant_first_failure_aborts (ec : QuantStage → Int) (i : Nat) (hi : i < 4)
    (hfail : ec (quantStageOrder.getD i QuantStage.mapping) ≠ 0)
    (hok : ∀ j, j < i → ec (quantStageOrder.getD j QuantStage.mapping) = 0) :
    (runQuantPipeline ec).1 = quantStageOrder.take (i + 1) ∧
    (runQuantPipeline ec).2
      = some (quantStageOrder.getD i QuantStage.mapping,
              ec (quantStageOrder.getD i QuantStage.mapping)) ∧
    quantFailureMsg (runQuantPipeline ec).2
      = some (quantStageName (quantStageOrder.getD i QuantStage.mapping)
          ++ " failed with exit status "
          ++ toString (ec (quantStageOrder.getD i QuantStage.mapping))) ∧
    ∀ j, i < j → j < 4 →
      quantStageOrder.getD j QuantStage.mapping ∉ (runQuantPipeline ec).1 := by
  interval_cases i
  · have h0 : ec .mapping ≠ 0 := by simpa [quantStageOrder] using hfail
    refine ⟨?_, ?_, ?_, ?_⟩
    · simp [runQuantPipeline, quantStageOrder, h0]
    · simp [runQuantPipeline, quantStageOrder, h0]
    · simp [runQuantPipeline, quantStageOrder, quantFailureMsg, h0]
    · intro j h1 h4
      interval_cases j <;> simp [runQuantPipeline, quantStageOrder, h0]
  · have h0 : ec .mapping = 0 := by simpa [quantStageOrder] using hok 0 (by omega)
    have h1 : ec .genPermitList ≠ 0 := by simpa [quantStageOrder] using hfail
    refine ⟨?_, ?_, ?_, ?_⟩
    · simp [runQuantPipeline, quantStageOrder, h0, h1]
    · simp [runQuantPipeline, quantStageOrder, h0, h1]
    · simp [runQuantPipeline, quantStageOrder, quantFailureMsg, h0, h1]
    · intro j hj h4
      interval_cases j <;> simp [runQuantPipeline, quantStageOrder, h0, h1]
  · have h0 : ec .mapping = 0 := by simpa [quantStageOrder] using hok 0 (by omega)
    have h1 : ec .genPermitList = 0 := by simpa [quantStageOrder] using hok 1 (by omega)
    have h2 : ec .collate ≠ 0 := by simpa [quantStageOrder] using hfail
    refine ⟨?_, ?_, ?_, ?_⟩
    · simp [runQuantPipeline, quantStageOrder, h0, h1, h2]
    · simp [runQuantPipeline, quantStageOrder, h0, h1, h2]
    · simp [runQuantPipeline, quantStageOrder, quantFailureMsg, h0, h1, h2]
    · intro j hj h4
      interval_cases j
      simp [runQuantPipeline, quantStageOrder, h0, h1, h2]
  · have h0 : ec .mapping = 0 := by simpa [quantStageOrder] using hok 0 (by omega)
    have h1 : ec .genPermitList = 0 := by simpa [quantStageOrder] using hok 1 (by omega)
    have h2 : ec .collate = 0 := by simpa [quantStageOrder] using hok 2 (by omega)
    have h3 : ec .quantStep ≠ 0 := by simpa [quantStageOrder] using hfail
    refine ⟨?_, ?_, ?_, ?_⟩
    · simp [runQuantPipeline, quantStageOrder, h0, h1, h2, h3]
    · simp [runQuantPipeline, quantStageOrder, h0, h1, h2, h3]
    · simp [runQuantPipeline, quantStageOrder, quantFailureMsg, h0, h1, h2, h3]
    · intro j hj h4
      omega

/-- Witness for C2 at a run whose collate stage is the first to fail with
exit status 2: mapping, generate-permit-list and collate are started, the
run aborts naming collate and status 2, and quant is never started. -/
theorem quant_first_failure_aborts_witness :
    (runQuantPipeline (fun s => if s = QuantStage.collate then 2 else 0)).1
      = [QuantStage.mapping, QuantStage.genPermitList, QuantStage.collate] ∧
    (runQuantPipeline (fun s => if s = QuantStage.collate then 2 else 0)).2
      = some (QuantStage.collate, 2) ∧
    QuantStage.quantStep
      ∉ (runQuantPipeline (fun s => if s = QuantStage.collate then 2 else 0)).1 := by
  have h := quant_first_failure_aborts (fun s => if s = QuantStage.collate then 2 else 0)
    2 (by omega) (by decide) (by intro j hj; interval_cases j <;> decide)
  refine ⟨by simpa [quantStageOrder] using h.1, by simpa [quantStageOrder] using h.2.1, ?_⟩
  have h4 := h.2.2.2 3 (by omega) (by omega)
  simpa [quantStageOrder] using h4

/-- C3: in the index workflow neither child's exit status is checked: the
run's output is identical under any two exit-code assignments, it never
reports a stage failure, and the aligner-index invocation (program and
`index` subcommand) is issued as the second of exactly two invocations
regardless of how the reference-builder exited. -/
theorem index_ignores_exit_status (py sa : String) (p : IndexArgs) (mp : Option Nat)
    (ec ec' : IndexStage → Int) (h : 5 ≤ p.rlen) :
    indexWorkflow py sa p mp ec = indexWorkflow py sa p mp ec' ∧
    (indexWorkflow py sa p mp ec).map indexRunView = some (none, 2, sa, "index") := by
  have h5 : ¬ p.rlen < 5 := by omega
  refine ⟨rfl, ?_⟩
  simp [indexWorkflow, indexRefFileName, indexT2gFileName, h5, indexRunView,
    secondInvocation, salmonIndexArgs]

/-- Witness for C3: with the reference builder exiting 7, the aligner index
invocation is still issued and no failure is reported. -/
theorem index_ignores_exit_status_witness :
    (indexWorkflow "pyroe" "salmon"
        ⟨"genome.fa", "genes.gtf", 91, "out", none, none, false, false, 16⟩
        (some 8) (fun _ => 7)).map indexRunView
      = some (none, 2, "salmon", "index") := by
  exact (index_ignores_exit_status "pyroe" "salmon"
    ⟨"genome.fa", "genes.gtf", 91, "out", none, none, false, false, 16⟩
    (some 8) (fun _ => 7) (fun _ => 0) (by decide)).2

/-- C7: in the index workflow with available parallelism `m`, the thread
count passed to the aligner-index invocation (its last argument, after a
`--threads` flag) is `min threads m`, the clamp warning is printed exactly
when `m < threads`, and the count equals `m` when clamped and the request
otherwise. -/
theorem index_threads_clamped (py sa : String) (p : IndexArgs) (m : Nat)
    (ec : IndexStage → Int) (h : 5 ≤ p.rlen) :
    (indexWorkflow py sa p (some m) ec).map threadView
      = some (some (toString (min p.threads m)), "--threads", decide (m < p.threads)) ∧
    (m < p.threads → min p.threads m = m) ∧
    (p.threads ≤ m → min p.threads m = p.threads) := by
  have h5 : ¬ p.rlen < 5 := by omega
  have hc : clampedThreads p.threads (some m)
      = (min p.threads m, decide (m < p.threads)) := by
    simp only [clampedThreads]
    rcases Nat.lt_or_ge m p.threads with ht | ht
    · rw [if_pos ht]
      simp [Nat.min_eq_right (Nat.le_of_lt ht), ht]
    · rw [if_neg (by omega)]
      simp [Nat.min_eq_left ht, Nat.not_lt.mpr ht]
  refine ⟨?_, by omega, by omega⟩
  cases hs : p.sparse <;>
    simp [indexWorkflow, indexRefFileName, indexT2gFileName, h5, threadView,
      secondInvocation, salmonIndexArgs, hc, hs]

/-- Witness for C7 with 32 threads requested and parallelism 8: the
aligner-index invocation receives 8 and the warning is printed. -/
theorem index_threads_clamped_witness :
    (indexWorkflow "pyroe" "salmon"
        ⟨"genome.fa", "genes.gtf", 91, "out", none, none, false, false, 32⟩
        (some 8) (fun _ => 0)).map threadView
      = some (some (toString (min 32 8)), "--threads", decide (8 < 32)) := by
  exact (index_threads_clamped "pyroe" "salmon"
    ⟨"genome.fa", "genes.gtf", 91, "out", none, none, false, false, 32⟩
    8 (fun _ => 0) (by decide)).1

/-- C10: the index workflow's derived file names are defined exactly for
`rlen ≥ 5`, where the reference FASTA is `splici_fl(rlen-5).fa` and the
t2g file is `splici_fl(rlen-5)_t2g_3col.tsv`; for `rlen < 5` the unsigned
`rlen - 5` underflows and the whole workflow is undefined (panics). -/
theorem index_filenames_rlen (rlen : Nat) :
    (5 ≤ rlen →
      indexRefFileName rlen = some ("splici_fl" ++ toString (rlen - 5) ++ ".fa") ∧
      indexT2gFileName rlen = some ("splici_fl" ++ toString (rlen - 5) ++ "_t2g_3col.tsv")) ∧
    (rlen < 5 →
      indexRefFileName rlen = none ∧ indexT2gFileName rlen = none ∧
      ∀ (py sa : String) (p : IndexArgs) (mp : Option Nat) (ec : IndexStage → Int),
        p.rlen = rlen → indexWorkflow py sa p mp ec = none) := by
  constructor
  · intro h
    have h5 : ¬ rlen < 5 := by omega
    exact ⟨by simp [indexRefFileName, h5], by simp [indexT2gFileName, h5]⟩
  · intro h
    refine ⟨by simp [indexRefFileName, h], by simp [indexT2gFileName, h], ?_⟩
    intro py sa p mp ec hp
    simp [indexWorkflow, indexRefFileName, indexT2gFileName, hp, h]

/-- Witness for C10 at read lengths 91 (defined, `splici_fl86.fa`) and 3
(underflow, undefined). -/
theorem index_filenames_rlen_witness :
    indexRefFileName 91 = some ("splici_fl" ++ toString (91 - 5) ++ ".fa") ∧
    indexRefFileName 3 = none := by
  exact ⟨((index_filenames_rlen 91).1 (by omega)).1, ((index_filenames_rlen 3).2 (by omega)).1⟩

/-- C5: for each recognized chemistry, with `ALEVIN_FRY_HOME` set to `home`,
`get_permit_if_absent` returns AlreadyPresent of `home/plist/<chem_file>`
when that file exists; otherwise it creates `home/plist`, invokes the
download utility targeting exactly that path (with the chemistry's
hard-coded URL), and returns DownloadSuccessful of the same path. -/
theorem permit_list_paths (home : String) (fx : String → Bool) (chem : Chemistry)
    (f u : String) (hf : chemPermitFile chem = some f) (hu : chemPermitUrl chem = some u) :
    (fx (pathJoin (pathJoin home "plist") f) = true →
      get_permit_if_absent (some home) fx chem
        = .ok (.alreadyPresent (pathJoin (pathJoin home "plist") f), noFsEffects)) ∧
    (fx (pathJoin (pathJoin home "plist") f) = false →
      get_permit_if_absent (some home) fx chem
        = .ok (.downloadSuccessful (pathJoin (pathJoin home "plist") f),
               ⟨[pathJoin home "plist"],
                [["-v", "-O", pathJoin (pathJoin home "plist") f, "-L", u]]⟩)) := by
  constructor
  · intro hx
    simp [get_permit_if_absent, hf, hu, hx]
  · intro hx
    simp [get_permit_if_absent, hf, hu, hx]

/-- Witness for C5: `ALEVIN_FRY_HOME=/tmp/afhome`, chemistry 10x v2, file
absent: the download targets exactly `/tmp/afhome/plist/10x_v2_permit.txt`
and that path is returned. -/
theorem permit_list_paths_witness :
    get_permit_if_absent (some "/tmp/afhome") (fun _ => false) Chemistry.tenxV2
      = Except.ok
          (PermitListResult.downloadSuccessful "/tmp/afhome/plist/10x_v2_permit.txt",
           ⟨["/tmp/afhome/plist"],
            [["-v", "-O", "/tmp/afhome/plist/10x_v2_permit.txt", "-L",
              "https://umd.box.com/shared/static/jbs2wszgbj7k4ic2hass9ts6nhqkwq1p"]]⟩) := by
  exact (permit_list_paths "/tmp/afhome" (fun _ => false) Chemistry.tenxV2
    "10x_v2_permit.txt" "https://umd.box.com/shared/static/jbs2wszgbj7k4ic2hass9ts6nhqkwq1p"
    rfl rfl).2 rfl

/-- C6 (counterexample): with `ALEVIN_FRY_HOME` unset, an unrecognized
chemistry does not produce the claimed ConfigError: the chemistry match
returns Ok(UnregisteredChemistry) before the environment is ever
consulted (main.rs lines 149-151). -/
theorem permit_env_unset_counterexample :
    get_permit_if_absent none (fun _ => false) (Chemistry.other "foo")
      = Except.ok (PermitListResult.unregisteredChemistry, noFsEffects) := by
  exact rfl

/-- C6 (amended): with `ALEVIN_FRY_HOME` unset, `get_permit_if_absent`
fails with the ConfigError for the two recognized chemistries only; for
any other chemistry it returns Ok(UnregisteredChemistry) without touching
the environment or the filesystem. -/
theorem permit_env_unset (fx : String → Bool) :
    (∀ chem f, chemPermitFile chem = some f →
      get_permit_if_absent none fx chem
        = Except.error "could not resolve $ALEVIN_FRY_HOME environment variable") ∧
    (∀ (home : Option String) (s : String),
      get_permit_if_absent home fx (Chemistry.other s)
        = Except.ok (PermitListResult.unregisteredChemistry, noFsEffects)) := by
  constructor
  · intro chem f hf
    have hu : ∃ u, chemPermitUrl chem = some u := by
      cases chem <;> simp_all [chemPermitFile, chemPermitUrl]
    obtain ⟨u, hu⟩ := hu
    simp [get_permit_if_absent, hf, hu]
  · intro home s
    rfl

/-- Witness for C6 (amended): 10x v2 with the variable unset errors, while
an unregistered chemistry succeeds even with it set. -/
theorem permit_env_unset_witness :
    get_permit_if_absent none (fun _ => true) Chemistry.tenxV2
      = Except.error "could not resolve $ALEVIN_FRY_HOME environment variable" ∧
    get_permit_if_absent (some "/tmp/afhome") (fun _ => true) (Chemistry.other "sciseq")
      = Except.ok (PermitListResult.unregisteredChemistry, noFsEffects) := by
  exact ⟨(permit_env_unset (fun _ => true)).1 Chemistry.tenxV2 "10x_v2_permit.txt" rfl,
         (permit_env_unset (fun _ => true)).2 (some "/tmp/afhome") "sciseq"⟩

/-- C8: the aligner invocation of the quant workflow is its
chemistry-independent argument list followed by exactly one chemistry
flag, which is `--chromium` for `10xv2`, `--chromiumV3` for `10xv3` and
`--<chemistry>` otherwise; in knee mode the generate-permit-list
invocation carries no filter flags beyond `-d fw`. -/
theorem quant_chemistry_flag (q : QuantArgs) :
    salmonAlevinArgs q = salmonAlevinBase q ++ [chemFlagArg q.chemistry] ∧
    (∀ c : String, salmonAlevinBase { q with chemistry := c } = salmonAlevinBase q) ∧
    chemFlagArg "10xv2" = "--chromium" ∧
    chemFlagArg "10xv3" = "--chromiumV3" ∧
    (∀ s : String, s ≠ "10xv2" → s ≠ "10xv3" → chemFlagArg s = "--" ++ s) ∧
    resolveFilterMethodNoPl none none = CellFilterMethod.kneeFinding ∧
    (∀ m g : String, gplCmdArgs CellFilterMethod.kneeFinding m g
      = ["generate-permit-list", "-i", m, "-d", "fw", "-o", g]) := by
  refine ⟨rfl, fun c => rfl, rfl, rfl, ?_, rfl, fun m g => rfl⟩
  intro s h2 h3
  simp [chemFlagArg, h2, h3]

/-- Witness for C8 at an unregistered chemistry name and concrete
generate-permit-list directories. -/
theorem quant_chemistry_flag_witness :
    chemFlagArg "custom-chem" = "--" ++ "custom-chem" ∧
    gplCmdArgs CellFilterMethod.kneeFinding "out/af_map" "out/af_quant"
      = ["generate-permit-list", "-i", "out/af_map", "-d", "fw", "-o", "out/af_quant"] := by
  exact ⟨(quant_chemistry_flag ⟨"i", [], [], 16, "custom-chem", "t", "r", "o"⟩).2.2.2.2.1
           "custom-chem" (by decide) (by decide),
         (quant_chemistry_flag ⟨"i", [], [], 16, "custom-chem", "t", "r", "o"⟩).2.2.2.2.2.2
           "out/af_map" "out/af_quant"⟩

/-- C9: the quant workflow forwards the requested thread count verbatim and
identically to the mapping (`--threads`), collate (`-t`) and quant (`-t`)
invocations; none of the quant argument constructors consults the host's
available parallelism, so no clamping occurs. -/
theorem quant_threads_forwarded (q : QuantArgs) :
    (salmonAlevinArgs q).getD 9 "" = "--threads" ∧
    (salmonAlevinArgs q).getD 10 "" = toString q.threads ∧
    (collateCmdArgs (pathJoin q.output "af_quant") (pathJoin q.output "af_map")
        q.threads).getD 5 "" = "-t" ∧
    (collateCmdArgs (pathJoin q.output "af_quant") (pathJoin q.output "af_map")
        q.threads).getD 6 "" = toString q.threads ∧
    (quantCmdArgs (pathJoin q.output "af_quant") q.threads q.t2gMap
        q.resolution).getD 5 "" = "-t" ∧
    (quantCmdArgs (pathJoin q.output "af_quant") q.threads q.t2gMap
        q.resolution).getD 6 "" = toString q.threads := by
  exact ⟨rfl, rfl, rfl, rfl, rfl, rfl⟩
